import Mathlib

/-!
Verification of the IR core of the `walrus` bytecode toolkit (`src/ir/mod.rs`).

The Rust source is shallowly embedded: arena identifiers (`id_arena::Id`)
become `Nat` indices, `Box<[T]>` and `Vec<T>` become `List T`, and the
`DisplayExpr` / `DotExpr` output buffers become plain `String` accumulators
that the display helpers append to (mirroring `push_str`).
-/

/-- Arena-scoped identifier of an expression node (`pub type ExprId = Id<Expr>`);
`Id::index()` is the raw numeric index, so ids are embedded as `Nat`. -/
abbrev ExprId : Type := Nat

/-- Identifier of a local (`pub type LocalId = Id<Local>`). -/
abbrev LocalId : Type := Nat

/-- Typed alias guaranteeing the referenced arena entry is a `Block` variant;
`ExprId::from(block)` preserves the numeric index, so it is also a `Nat`. -/
abbrev BlockId : Type := Nat

/-- Identifier of a function in the module registry. -/
abbrev FunctionId : Type := Nat

/-- Identifier of a global in the module registry. -/
abbrev GlobalId : Type := Nat

/-- Identifier of a memory in the module registry. -/
abbrev MemoryId : Type := Nat

/-- Identifier of a table in the module registry. -/
abbrev TableId : Type := Nat

/-- Identifier of a type signature in the module registry. -/
abbrev TypeId : Type := Nat

/-- Conversion used by the display helpers: `ExprId::from(e.block).index()`. -/
def BlockId.toExprId (b : BlockId) : ExprId := b

/-- Numeric index of an id, as rendered by `{}` formatting of `Id::index()`. -/
def ExprId.index (e : ExprId) : Nat := e

/-- Wasm value types (`ValType`: `i32 | i64 | f32 | f64 | v128`). -/
inductive ValType where
  | I32
  | I64
  | F32
  | F64
  | V128
deriving DecidableEq, Repr

/-- A local variable or parameter (`struct Local`): identity, type, and an
optional human-readable name. -/
structure Local where
  id : LocalId
  ty : ValType
  name : Option String
deriving DecidableEq, Repr

/-- Construct a new local from the given id and type (`Local::new`). -/
def Local.new (id : LocalId) (ty : ValType) : Local :=
  { id := id, ty := ty, name := none }

/-- Different kinds of blocks (`enum BlockKind`). -/
inductive BlockKind where
  | Block
  | Loop
  | IfElse
  | FunctionEntry
deriving DecidableEq, Repr

/-- Constant values that can show up in WebAssembly (`enum Value`). Floating
payloads are carried as raw bit patterns; no claim inspects them. -/
inductive Value where
  | I32 (v : Int)
  | I64 (v : Int)
  | F32 (bits : Nat)
  | F64 (bits : Nat)
  | V128 (v : Nat)
deriving DecidableEq, Repr

/-- Possible binary operations in wasm (`enum BinaryOp`, 78 cases). -/
inductive BinaryOp where
  | I32Eq
  | I32Ne
  | I32LtS
  | I32LtU
  | I32GtS
  | I32GtU
  | I32LeS
  | I32LeU
  | I32GeS
  | I32GeU
  | I64Eq
  | I64Ne
  | I64LtS
  | I64LtU
  | I64GtS
  | I64GtU
  | I64LeS
  | I64LeU
  | I64GeS
  | I64GeU
  | F32Eq
  | F32Ne
  | F32Lt
  | F32Gt
  | F32Le
  | F32Ge
  | F64Eq
  | F64Ne
  | F64Lt
  | F64Gt
  | F64Le
  | F64Ge
  | I32Add
  | I32Sub
  | I32Mul
  | I32DivS
  | I32DivU
  | I32RemS
  | I32RemU
  | I32And
  | I32Or
  | I32Xor
  | I32Shl
  | I32ShrS
  | I32ShrU
  | I32Rotl
  | I32Rotr
  | I64Add
  | I64Sub
  | I64Mul
  | I64DivS
  | I64DivU
  | I64RemS
  | I64RemU
  | I64And
  | I64Or
  | I64Xor
  | I64Shl
  | I64ShrS
  | I64ShrU
  | I64Rotl
  | I64Rotr
  | F32Add
  | F32Sub
  | F32Mul
  | F32Div
  | F32Min
  | F32Max
  | F32Copysign
  | F64Add
  | F64Sub
  | F64Mul
  | F64Div
  | F64Min
  | F64Max
  | F64Copysign
deriving DecidableEq, Repr

/-- Possible unary operations in wasm (`enum UnaryOp`, 46 cases). -/
inductive UnaryOp where
  | I32Eqz
  | I32Clz
  | I32Ctz
  | I32Popcnt
  | I64Eqz
  | I64Clz
  | I64Ctz
  | I64Popcnt
  | F32Abs
  | F32Neg
  | F32Ceil
  | F32Floor
  | F32Trunc
  | F32Nearest
  | F32Sqrt
  | F64Abs
  | F64Neg
  | F64Ceil
  | F64Floor
  | F64Trunc
  | F64Nearest
  | F64Sqrt
  | I32WrapI64
  | I32TruncSF32
  | I32TruncUF32
  | I32TruncSF64
  | I32TruncUF64
  | I64ExtendSI32
  | I64ExtendUI32
  | I64TruncSF32
  | I64TruncUF32
  | I64TruncSF64
  | I64TruncUF64
  | F32ConvertSI32
  | F32ConvertUI32
  | F32ConvertSI64
  | F32ConvertUI64
  | F32DemoteF64
  | F64ConvertSI32
  | F64ConvertUI32
  | F64ConvertSI64
  | F64ConvertUI64
  | F64PromoteF32
  | I32ReinterpretF32
  | I64ReinterpretF64
  | F32ReinterpretI32
  | F64ReinterpretI64
deriving DecidableEq, Repr

/-- The different kinds of load instructions (`enum LoadKind`). -/
inductive LoadKind where
  | I32
  | I64
  | F32
  | F64
  | V128
  | I32_8 (sign_extend : Bool)
  | I32_16 (sign_extend : Bool)
  | I64_8 (sign_extend : Bool)
  | I64_16 (sign_extend : Bool)
  | I64_32 (sign_extend : Bool)
deriving DecidableEq, Repr

/-- The different kinds of store instructions (`enum StoreKind`). -/
inductive StoreKind where
  | I32
  | I64
  | F32
  | F64
  | V128
  | I32_8
  | I32_16
  | I64_8
  | I64_16
  | I64_32
deriving DecidableEq, Repr

/-- Arguments to memory operations (`struct MemArg`): alignment and offset,
both `u32` in the source. -/
structure MemArg where
  align : Nat
  offset : Nat
deriving DecidableEq, Repr

/-- Payload of the `Expr::Block` variant, as generated by `#[walrus_expr]`:
kind tag, declared param/result types, and the ordered body sequence. -/
structure Block where
  kind : BlockKind
  params : List ValType
  results : List ValType
  exprs : List ExprId
deriving DecidableEq, Repr

/-- Payload of the `Expr::Binop` variant. -/
structure Binop where
  op : BinaryOp
  lhs : ExprId
  rhs : ExprId
deriving DecidableEq, Repr

/-- Payload of the `Expr::Unop` variant. -/
structure Unop where
  op : UnaryOp
  expr : ExprId
deriving DecidableEq, Repr

/-- Payload of the `Expr::Br` variant: target block and branch arguments. -/
structure Br where
  block : BlockId
  args : List ExprId
deriving DecidableEq, Repr

/-- Payload of the `Expr::BrIf` variant: condition, target block, arguments. -/
structure BrIf where
  condition : ExprId
  block : BlockId
  args : List ExprId
deriving DecidableEq, Repr

/-- Payload of the `Expr::BrTable` variant: selector, table of targets,
default target, and arguments. -/
structure BrTable where
  which : ExprId
  blocks : List BlockId
  default : BlockId
  args : List ExprId
deriving DecidableEq, Repr

/-- An enum of all the different kinds of wasm expressions (`enum Expr`),
with fields in declared order. Variants whose payload has a named display
helper in the source keep the macro-generated payload struct; the others
carry their fields inline. -/
inductive Expr where
  | Block (b : Block)
  | Call (func : FunctionId) (args : List ExprId)
  | CallIndirect (ty : TypeId) (table : TableId) (func : ExprId) (args : List ExprId)
  | LocalGet («local» : LocalId)
  | LocalSet («local» : LocalId) (value : ExprId)
  | LocalTee («local» : LocalId) (value : ExprId)
  | GlobalGet (global : GlobalId)
  | GlobalSet (global : GlobalId) (value : ExprId)
  | Const (value : Value)
  | Binop (b : Binop)
  | Unop (u : Unop)
  | Select (condition : ExprId) (consequent : ExprId) (alternative : ExprId)
  | Unreachable
  | Br (b : Br)
  | BrIf (b : BrIf)
  | IfElse (condition : ExprId) (consequent : BlockId) (alternative : BlockId)
  | BrTable (b : BrTable)
  | Drop (expr : ExprId)
  | Return (values : List ExprId)
  | MemorySize (memory : MemoryId)
  | MemoryGrow (memory : MemoryId) (pages : ExprId)
  | Load (memory : MemoryId) (kind : LoadKind) (arg : MemArg) (address : ExprId)
  | Store (memory : MemoryId) (kind : StoreKind) (arg : MemArg) (address : ExprId) (value : ExprId)
deriving DecidableEq, Repr

/-- Are any instructions that follow this expression's instruction (within the
current block) unreachable? (`Expr::following_instructions_are_unreachable`,
translated arm for arm, with no wildcard arm, exactly as the source.) -/
def Expr.following_instructions_are_unreachable : Expr → Bool
  | Expr.Unreachable | Expr.Br _ | Expr.BrTable _ | Expr.Return _ => true
  | Expr.Block _
  | Expr.Call _ _
  | Expr.LocalGet _
  | Expr.LocalSet _ _
  | Expr.LocalTee _ _
  | Expr.GlobalGet _
  | Expr.GlobalSet _ _
  | Expr.Const _
  | Expr.Binop _
  | Expr.Unop _
  | Expr.Select _ _ _
  | Expr.BrIf _
  | Expr.IfElse _ _ _
  | Expr.MemorySize _
  | Expr.MemoryGrow _ _
  | Expr.CallIndirect _ _ _ _
  | Expr.Load _ _ _ _
  | Expr.Store _ _ _ _ _
  | Expr.Drop _ => false

/-- Construct a new block (`Block::new`): the body starts empty. -/
def Block.new (kind : BlockKind) (params : List ValType) (results : List ValType) : Block :=
  { kind := kind, params := params, results := results, exprs := [] }

/-- Textual block keyword (`display_block_name`): `loop` for `Loop`, wildcard
arm `block` for everything else. The `DisplayExpr` buffer is the `String`. -/
def display_block_name (block : Block) (f : String) : String :=
  match block.kind with
  | BlockKind.Loop => f ++ "loop"
  | _ => f ++ "block"

/-- Graphviz block keyword (`dot_block_name`): one arm per kind. -/
def dot_block_name (block : Block) (out : String) : String :=
  match block.kind with
  | BlockKind.Loop => out ++ "loop"
  | BlockKind.IfElse => out ++ "if_else"
  | BlockKind.FunctionEntry => out ++ "entry"
  | BlockKind.Block => out ++ "block"

/-- Trailing annotation of `br` (`display_br`):
`format!(" (;e{};)", ExprId::from(e.block).index())`. -/
def display_br (e : Br) (f : String) : String :=
  f ++ (" (;e" ++ Nat.repr e.block.toExprId.index ++ ";)")

/-- Trailing annotation of `br_if` (`display_br_if`), same shape as `br`. -/
def display_br_if (e : BrIf) (f : String) : String :=
  f ++ (" (;e" ++ Nat.repr e.block.toExprId.index ++ ";)")

/-- Trailing annotation of `br_table` (`display_br_table`): the table entries
are rendered `e{index}`, joined with a single space, inside
`" (;default:e{}  [{}];)"`. -/
def display_br_table (e : BrTable) (f : String) : String :=
  let blocks := String.intercalate " "
    (e.blocks.map (fun b => "e" ++ Nat.repr b.toExprId.index))
  f ++ (" (;default:e" ++ Nat.repr e.default.toExprId.index ++ "  [" ++ blocks ++ "];)")

/-- Case-name spelling of a binary operator, modelling the output of Rust's
`#[derive(Debug)]` on the fieldless `BinaryOp` enum, which `{:?}` formatting
renders as the variant's own name. -/
def BinaryOp.caseName : BinaryOp → String
  | I32Eq => "I32Eq"
  | I32Ne => "I32Ne"
  | I32LtS => "I32LtS"
  | I32LtU => "I32LtU"
  | I32GtS => "I32GtS"
  | I32GtU => "I32GtU"
  | I32LeS => "I32LeS"
  | I32LeU => "I32LeU"
  | I32GeS => "I32GeS"
  | I32GeU => "I32GeU"
  | I64Eq => "I64Eq"
  | I64Ne => "I64Ne"
  | I64LtS => "I64LtS"
  | I64LtU => "I64LtU"
  | I64GtS => "I64GtS"
  | I64GtU => "I64GtU"
  | I64LeS => "I64LeS"
  | I64LeU => "I64LeU"
  | I64GeS => "I64GeS"
  | I64GeU => "I64GeU"
  | F32Eq => "F32Eq"
  | F32Ne => "F32Ne"
  | F32Lt => "F32Lt"
  | F32Gt => "F32Gt"
  | F32Le => "F32Le"
  | F32Ge => "F32Ge"
  | F64Eq => "F64Eq"
  | F64Ne => "F64Ne"
  | F64Lt => "F64Lt"
  | F64Gt => "F64Gt"
  | F64Le => "F64Le"
  | F64Ge => "F64Ge"
  | I32Add => "I32Add"
  | I32Sub => "I32Sub"
  | I32Mul => "I32Mul"
  | I32DivS => "I32DivS"
  | I32DivU => "I32DivU"
  | I32RemS => "I32RemS"
  | I32RemU => "I32RemU"
  | I32And => "I32And"
  | I32Or => "I32Or"
  | I32Xor => "I32Xor"
  | I32Shl => "I32Shl"
  | I32ShrS => "I32ShrS"
  | I32ShrU => "I32ShrU"
  | I32Rotl => "I32Rotl"
  | I32Rotr => "I32Rotr"
  | I64Add => "I64Add"
  | I64Sub => "I64Sub"
  | I64Mul => "I64Mul"
  | I64DivS => "I64DivS"
  | I64DivU => "I64DivU"
  | I64RemS => "I64RemS"
  | I64RemU => "I64RemU"
  | I64And => "I64And"
  | I64Or => "I64Or"
  | I64Xor => "I64Xor"
  | I64Shl => "I64Shl"
  | I64ShrS => "I64ShrS"
  | I64ShrU => "I64ShrU"
  | I64Rotl => "I64Rotl"
  | I64Rotr => "I64Rotr"
  | F32Add => "F32Add"
  | F32Sub => "F32Sub"
  | F32Mul => "F32Mul"
  | F32Div => "F32Div"
  | F32Min => "F32Min"
  | F32Max => "F32Max"
  | F32Copysign => "F32Copysign"
  | F64Add => "F64Add"
  | F64Sub => "F64Sub"
  | F64Mul => "F64Mul"
  | F64Div => "F64Div"
  | F64Min => "F64Min"
  | F64Max => "F64Max"
  | F64Copysign => "F64Copysign"

/-- Case-name spelling of a unary operator, modelling `#[derive(Debug)]`
output on `UnaryOp` exactly as for `BinaryOp`. -/
def UnaryOp.caseName : UnaryOp → String
  | I32Eqz => "I32Eqz"
  | I32Clz => "I32Clz"
  | I32Ctz => "I32Ctz"
  | I32Popcnt => "I32Popcnt"
  | I64Eqz => "I64Eqz"
  | I64Clz => "I64Clz"
  | I64Ctz => "I64Ctz"
  | I64Popcnt => "I64Popcnt"
  | F32Abs => "F32Abs"
  | F32Neg => "F32Neg"
  | F32Ceil => "F32Ceil"
  | F32Floor => "F32Floor"
  | F32Trunc => "F32Trunc"
  | F32Nearest => "F32Nearest"
  | F32Sqrt => "F32Sqrt"
  | F64Abs => "F64Abs"
  | F64Neg => "F64Neg"
  | F64Ceil => "F64Ceil"
  | F64Floor => "F64Floor"
  | F64Trunc => "F64Trunc"
  | F64Nearest => "F64Nearest"
  | F64Sqrt => "F64Sqrt"
  | I32WrapI64 => "I32WrapI64"
  | I32TruncSF32 => "I32TruncSF32"
  | I32TruncUF32 => "I32TruncUF32"
  | I32TruncSF64 => "I32TruncSF64"
  | I32TruncUF64 => "I32TruncUF64"
  | I64ExtendSI32 => "I64ExtendSI32"
  | I64ExtendUI32 => "I64ExtendUI32"
  | I64TruncSF32 => "I64TruncSF32"
  | I64TruncUF32 => "I64TruncUF32"
  | I64TruncSF64 => "I64TruncSF64"
  | I64TruncUF64 => "I64TruncUF64"
  | F32ConvertSI32 => "F32ConvertSI32"
  | F32ConvertUI32 => "F32ConvertUI32"
  | F32ConvertSI64 => "F32ConvertSI64"
  | F32ConvertUI64 => "F32ConvertUI64"
  | F32DemoteF64 => "F32DemoteF64"
  | F64ConvertSI32 => "F64ConvertSI32"
  | F64ConvertUI32 => "F64ConvertUI32"
  | F64ConvertSI64 => "F64ConvertSI64"
  | F64ConvertUI64 => "F64ConvertUI64"
  | F64PromoteF32 => "F64PromoteF32"
  | I32ReinterpretF32 => "I32ReinterpretF32"
  | I64ReinterpretF64 => "I64ReinterpretF64"
  | F32ReinterpretI32 => "F32ReinterpretI32"
  | F64ReinterpretI64 => "F64ReinterpretI64"

/-- Textual operator name of a `Binop` (`display_binop_name`):
`format!("{:?}", e.op)` appended to the buffer. -/
def display_binop_name (e : Binop) (f : String) : String :=
  f ++ e.op.caseName

/-- Graphviz operator name of a `Binop` (`dot_binop_name`). -/
def dot_binop_name (e : Binop) (out : String) : String :=
  out ++ e.op.caseName

/-- Textual operator name of a `Unop` (`display_unop_name`). -/
def display_unop_name (e : Unop) (f : String) : String :=
  f ++ e.op.caseName

/-- Graphviz operator name of a `Unop` (`dot_unop_name`). -/
def dot_unop_name (e : Unop) (out : String) : String :=
  out ++ e.op.caseName

/-- Modelled from the spec: the generic visitor walk is generated by the
`#[walrus_expr]` macro of the sibling `walrus_derive` crate, whose generated
code is not in the source tree. Per §4.5 of the spec it recurses into each
node's expression-reference fields in declared field order, and does not
descend into fields marked `#[walrus(skip_visit)]` — the branch-target
`block`, `blocks` and `default` fields of `Br`, `BrIf` and `BrTable` (already
visited at their lexical position) and the non-expression payload fields.
This function lists, per node, the child ids the walk descends into, in
order. Note that `IfElse`'s two arm blocks are not `skip_visit` and are
therefore walked. -/
def visitChildren : Expr → List ExprId
  | Expr.Block b => b.exprs
  | Expr.Call _ args => args
  | Expr.CallIndirect _ _ func args => func :: args
  | Expr.LocalGet _ => []
  | Expr.LocalSet _ value => [value]
  | Expr.LocalTee _ value => [value]
  | Expr.GlobalGet _ => []
  | Expr.GlobalSet _ value => [value]
  | Expr.Const _ => []
  | Expr.Binop b => [b.lhs, b.rhs]
  | Expr.Unop u => [u.expr]
  | Expr.Select condition consequent alternative => [condition, consequent, alternative]
  | Expr.Unreachable => []
  | Expr.Br b => b.args
  | Expr.BrIf b => b.condition :: b.args
  | Expr.IfElse condition consequent alternative => [condition, consequent, alternative]
  | Expr.BrTable b => b.which :: b.args
  | Expr.Drop expr => [expr]
  | Expr.Return values => values
  | Expr.MemorySize _ => []
  | Expr.MemoryGrow _ pages => [pages]
  | Expr.Load _ _ _ address => [address]
  | Expr.Store _ _ _ address value => [address, value]

/-- A function's arena: the node stored at index `i` is entry `i`. The arena
is append-only, so a node's id is larger than the ids of the nodes that were
already present when it was inserted. -/
abbrev Arena : Type := List Expr

/-- Children the walk descends into from node `i` (empty off the arena). -/
def childrenAt (a : Arena) (i : Nat) : List Nat :=
  match a[i]? with
  | some e => visitChildren e
  | none => []

/-- Fuel-indexed visitor walk: visit the node, then recursively walk each
child in declared field order (`Visit for ExprId` dispatches through the
arena: `visitor.visit_expr(&visitor.local_function().exprs[*self])`). -/
def walkF : Nat → Arena → Nat → List Nat
  | 0, _, _ => []
  | fuel + 1, a, i => i :: (childrenAt a i).flatMap (walkF fuel a)

/-- The visitor walk started at node `i`; fuel `i + 1` suffices on
well-formed arenas. -/
def walk (a : Arena) (i : Nat) : List Nat :=
  walkF (i + 1) a i

/-- Well-formedness of an arena as produced by the bytecode-to-graph
translation: every lexical child was inserted before its parent, so child
ids are strictly smaller. This is what makes the lexical body structure
acyclic even though the control-flow graph is not. -/
def WFArena (a : Arena) : Prop :=
  ∀ i < a.length, ∀ j ∈ childrenAt a i, j < i

instance (a : Arena) : Decidable (WFArena a) := by
  unfold WFArena; infer_instance

/-- The canonical builder never shares a node between two lexical parents:
each node occurs at most once in at most one node's child list. Together
with `WFArena` this makes the lexical structure a forest. -/
def UniqueParent (a : Arena) : Prop :=
  (∀ i < a.length, (childrenAt a i).Nodup) ∧
  (∀ i₁ < a.length, ∀ i₂ < a.length, ∀ k, k ∈ childrenAt a i₁ → k ∈ childrenAt a i₂ → i₁ = i₂)

instance (a : Arena) : Decidable (UniqueParent a) := by
  unfold UniqueParent; infer_instance

/-- One lexical-descent step: `y` is a child the walk enters from `x`. -/
def childRel (a : Arena) (x y : Nat) : Prop := y ∈ childrenAt a x

/-- Node `k` is reachable from node `i` by lexical descent. -/
def Reachable (a : Arena) (i k : Nat) : Prop :=
  Relation.ReflTransGen (childRel a) i k

theorem childrenAt_eq_nil_of_le (a : Arena) (i : Nat) (h : a.length ≤ i) :
    childrenAt a i = [] := by
  unfold childrenAt
  rw [List.getElem?_eq_none h]

theorem WFArena.child_lt {a : Arena} (wf : WFArena a) {i j : Nat}
    (hj : j ∈ childrenAt a i) : j < i := by
  by_cases hi : i < a.length
  · exact wf i hi j hj
  · rw [childrenAt_eq_nil_of_le a i (Nat.le_of_not_lt hi)] at hj
    cases hj

theorem UniqueParent.nodup {a : Arena} (up : UniqueParent a) (i : Nat) :
    (childrenAt a i).Nodup := by
  by_cases hi : i < a.length
  · exact up.1 i hi
  · rw [childrenAt_eq_nil_of_le a i (Nat.le_of_not_lt hi)]
    exact List.nodup_nil

theorem UniqueParent.parent_eq {a : Arena} (up : UniqueParent a) {i₁ i₂ k : Nat}
    (h₁ : k ∈ childrenAt a i₁) (h₂ : k ∈ childrenAt a i₂) : i₁ = i₂ := by
  by_cases hi₁ : i₁ < a.length
  · by_cases hi₂ : i₂ < a.length
    · exact up.2 i₁ hi₁ i₂ hi₂ k h₁ h₂
    · rw [childrenAt_eq_nil_of_le a i₂ (Nat.le_of_not_lt hi₂)] at h₂
      cases h₂
  · rw [childrenAt_eq_nil_of_le a i₁ (Nat.le_of_not_lt hi₁)] at h₁
    cases h₁

theorem flatMap_congr_mem {l : List Nat} {f g : Nat → List Nat}
    (h : ∀ x ∈ l, f x = g x) : l.flatMap f = l.flatMap g := by
  induction l with
  | nil => rfl
  | cons x xs ih =>
      simp only [List.flatMap_cons]
      rw [h x (List.mem_cons_self x xs), ih (fun y hy => h y (List.mem_cons_of_mem x hy))]

theorem walkF_eq_of_lt {a : Arena} (wf : WFArena a) :
    ∀ i f₁ f₂, i < f₁ → i < f₂ → walkF f₁ a i = walkF f₂ a i := by
  intro i
  induction i using Nat.strong_induction_on with
  | _ i ih =>
      intro f₁ f₂ h₁ h₂
      match f₁, f₂ with
      | g₁ + 1, g₂ + 1 =>
          simp only [walkF]
          refine congrArg (List.cons i) (flatMap_congr_mem ?_)
          intro j hj
          have hji : j < i := wf.child_lt hj
          exact ih j hji g₁ g₂ (Nat.lt_of_lt_of_le hji (Nat.lt_succ_iff.mp h₁))
            (Nat.lt_of_lt_of_le hji (Nat.lt_succ_iff.mp h₂))

theorem walk_unfold {a : Arena} (wf : WFArena a) (i : Nat) :
    walk a i = i :: (childrenAt a i).flatMap (walk a) := by
  show walkF (i + 1) a i = _
  simp only [walkF]
  refine congrArg (List.cons i) (flatMap_congr_mem ?_)
  intro j hj
  exact walkF_eq_of_lt wf j i (j + 1) (wf.child_lt hj) (Nat.lt_succ_self j)

theorem mem_walk_iff_reachable {a : Arena} (wf : WFArena a) :
    ∀ i k, k ∈ walk a i ↔ Reachable a i k := by
  intro i
  induction i using Nat.strong_induction_on with
  | _ i ih =>
      intro k
      rw [walk_unfold wf i]
      constructor
      · intro hk
        rcases List.mem_cons.mp hk with h | h
        · exact h ▸ Relation.ReflTransGen.refl
        · rcases List.mem_flatMap.mp h with ⟨j, hj, hkj⟩
          have hji : j < i := wf.child_lt hj
          exact Relation.ReflTransGen.head hj ((ih j hji k).mp hkj)
      · intro hk
        rcases Relation.ReflTransGen.cases_head hk with h | ⟨j, hj, hjk⟩
        · exact h ▸ List.mem_cons_self i _
        · have hji : j < i := wf.child_lt hj
          exact List.mem_cons_of_mem i
            (List.mem_flatMap.mpr ⟨j, hj, (ih j hji k).mpr hjk⟩)

theorem Reachable.le {a : Arena} (wf : WFArena a) {i k : Nat}
    (h : Reachable a i k) : k ≤ i := by
  induction h with
  | refl => exact Nat.le_refl i
  | tail _ hstep ih => exact Nat.le_trans (Nat.le_of_lt (wf.child_lt hstep)) ih

theorem reachable_of_last_edge {a : Arena} (up : UniqueParent a) {p c y : Nat}
    (hp : childRel a p c) (hy : Reachable a y c) : y = c ∨ Reachable a y p := by
  rcases Relation.ReflTransGen.cases_tail hy with h | ⟨m, hym, hmc⟩
  · exact Or.inl h.symm
  · exact Or.inr (up.parent_eq hmc hp ▸ hym)

theorem reachable_comparable {a : Arena} (up : UniqueParent a) {x y k : Nat}
    (hx : Reachable a x k) (hy : Reachable a y k) :
    Reachable a x y ∨ Reachable a y x := by
  induction hx using Relation.ReflTransGen.head_induction_on with
  | refl => exact Or.inr hy
  | head hstep _ ih =>
      rcases ih with h | h
      · exact Or.inl (Relation.ReflTransGen.head hstep h)
      · rcases reachable_of_last_edge up hstep h with rfl | h
        · exact Or.inl (Relation.ReflTransGen.single hstep)
        · exact Or.inr h

theorem sibling_subtrees_disjoint {a : Arena} (wf : WFArena a)
    (up : UniqueParent a) {i j₁ j₂ : Nat} (h₁ : j₁ ∈ childrenAt a i)
    (h₂ : j₂ ∈ childrenAt a i) (hne : j₁ ≠ j₂) {k : Nat}
    (hk₁ : Reachable a j₁ k) (hk₂ : Reachable a j₂ k) : False := by
  have key : ∀ {m₁ m₂ : Nat}, m₁ ∈ childrenAt a i → m₂ ∈ childrenAt a i →
      m₁ ≠ m₂ → Reachable a m₁ m₂ → False := by
    intro m₁ m₂ hm₁ hm₂ hne hreach
    rcases reachable_of_last_edge up hm₂ hreach with h | h
    · exact hne h
    · exact Nat.lt_irrefl i (Nat.lt_of_le_of_lt (h.le wf) (wf.child_lt hm₁))
  rcases reachable_comparable up hk₁ hk₂ with h | h
  · exact key h₁ h₂ hne h
  · exact key h₂ h₁ (Ne.symm hne) h

theorem walk_nodup {a : Arena} (wf : WFArena a) (up : UniqueParent a) :
    ∀ i, (walk a i).Nodup := by
  intro i
  induction i using Nat.strong_induction_on with
  | _ i ih =>
      rw [walk_unfold wf i]
      refine List.nodup_cons.mpr ⟨?_, ?_⟩
      · intro hmem
        rcases List.mem_flatMap.mp hmem with ⟨j, hj, hij⟩
        have hji : j < i := wf.child_lt hj
        have : i ≤ j := (((mem_walk_iff_reachable wf) j i).mp hij).le wf
        exact Nat.lt_irrefl i (Nat.lt_of_le_of_lt this hji)
      · refine List.nodup_flatMap.mpr ⟨?_, ?_⟩
        · intro j hj
          exact ih j (wf.child_lt hj)
        · refine List.Pairwise.imp_of_mem ?_ (up.nodup i)
          intro j₁ j₂ hj₁ hj₂ hne k hk₁ hk₂
          exact sibling_subtrees_disjoint wf up hj₁ hj₂ hne
            ((mem_walk_iff_reachable wf j₁ k).mp hk₁)
            ((mem_walk_iff_reachable wf j₂ k).mp hk₂)

/-- Index of a node's variant, in the declaration order of `enum Expr`. -/
def exprTag : Expr → Nat
  | Expr.Block _ => 0
  | Expr.Call _ _ => 1
  | Expr.CallIndirect _ _ _ _ => 2
  | Expr.LocalGet _ => 3
  | Expr.LocalSet _ _ => 4
  | Expr.LocalTee _ _ => 5
  | Expr.GlobalGet _ => 6
  | Expr.GlobalSet _ _ => 7
  | Expr.Const _ => 8
  | Expr.Binop _ => 9
  | Expr.Unop _ => 10
  | Expr.Select _ _ _ => 11
  | Expr.Unreachable => 12
  | Expr.Br _ => 13
  | Expr.BrIf _ => 14
  | Expr.IfElse _ _ _ => 15
  | Expr.BrTable _ => 16
  | Expr.Drop _ => 17
  | Expr.Return _ => 18
  | Expr.MemorySize _ => 19
  | Expr.MemoryGrow _ _ => 20
  | Expr.Load _ _ _ _ => 21
  | Expr.Store _ _ _ _ _ => 22

/-- One concrete representative of each `Expr` variant, in declaration
order; used to check the variant count and the per-variant value of the
reachability predicate. -/
def variantReps : List Expr :=
  [ Expr.Block ⟨BlockKind.Block, [], [], []⟩,
    Expr.Call 0 [],
    Expr.CallIndirect 0 0 0 [],
    Expr.LocalGet 0,
    Expr.LocalSet 0 0,
    Expr.LocalTee 0 0,
    Expr.GlobalGet 0,
    Expr.GlobalSet 0 0,
    Expr.Const (Value.I32 0),
    Expr.Binop ⟨BinaryOp.I32Add, 0, 0⟩,
    Expr.Unop ⟨UnaryOp.I32Eqz, 0⟩,
    Expr.Select 0 0 0,
    Expr.Unreachable,
    Expr.Br ⟨0, []⟩,
    Expr.BrIf ⟨0, 0, []⟩,
    Expr.IfElse 0 0 0,
    Expr.BrTable ⟨0, [], 0, []⟩,
    Expr.Drop 0,
    Expr.Return [],
    Expr.MemorySize 0,
    Expr.MemoryGrow 0 0,
    Expr.Load 0 LoadKind.I32 ⟨0, 0⟩ 0,
    Expr.Store 0 StoreKind.I32 ⟨0, 0⟩ 0 0 ]

/-- The branch suffix as the spec words it: `" (;e{index};)"` with the
target block's numeric index. -/
def brSuffixSpec (block : BlockId) : String :=
  " (;e" ++ Nat.repr block ++ ";)"

/-- The branch-table suffix as the spec words it:
`" (;default:e{default_index}  [e{b1} e{b2} ...];)"` — two spaces before the
bracket, table entries space-separated, each as `e{index}`, in table order. -/
def brTableSuffixSpec (blocks : List BlockId) (defaultTarget : BlockId) : String :=
  " (;default:e" ++ Nat.repr defaultTarget ++ "  [" ++
    String.intercalate " " (blocks.map (fun b => "e" ++ Nat.repr b)) ++ "];)"

/-- Claim C1: `following_instructions_are_unreachable` returns true if and
only if the node is an `Unreachable`, `Br`, `BrTable`, or `Return` variant;
every other variant (including the conditional `BrIf` and `IfElse`)
returns false. -/
theorem following_instructions_are_unreachable_iff (e : Expr) :
    e.following_instructions_are_unreachable = true ↔
      (e = Expr.Unreachable ∨ (∃ b, e = Expr.Br b) ∨
        (∃ b, e = Expr.BrTable b) ∨ (∃ vs, e = Expr.Return vs)) := by
  cases e <;> simp [Expr.following_instructions_are_unreachable]

/-- Claim C2, counterexample: the `Expr` enumeration does not have 25
variants and the predicate is not false on 21 of them — the full list of
representatives (one per variant, pairwise distinct variants) has length 23,
of which 19 falsify the predicate. -/
theorem expr_variant_count_ne_25 :
    variantReps.length = 23 ∧ (variantReps.map exprTag).Nodup ∧
      (variantReps.filter
        (fun e => e.following_instructions_are_unreachable = false)).length = 19 ∧
      variantReps.length ≠ 25 ∧
      (variantReps.filter
        (fun e => e.following_instructions_are_unreachable = false)).length ≠ 21 := by
  decide

/-- Claim C2, amended: the `Expr` enumeration consists of exactly 23
variants — `variantReps` lists one representative per variant, the variant
tags are pairwise distinct, and every `Expr` falls on one of the 23 tags —
and `following_instructions_are_unreachable` returns false for exactly 19
of them (true for the 4 others). -/
theorem expr_variant_count_23_and_19_fall_through :
    variantReps.length = 23 ∧ (variantReps.map exprTag).Nodup ∧
      (∀ e : Expr, exprTag e ∈ variantReps.map exprTag) ∧
      (variantReps.filter
        (fun e => e.following_instructions_are_unreachable = false)).length = 19 ∧
      (variantReps.filter
        (fun e => e.following_instructions_are_unreachable = true)).length = 4 := by
  refine ⟨by decide, by decide, ?_, by decide, by decide⟩
  intro e
  cases e <;> simp [exprTag, variantReps]

/-- Claim C3: for a well-formed function body (lexical children inserted
before their parents, each node owned by at most one lexical parent), the
generic visitor walk started at the entry node terminates and visits every
reachable node exactly once (`Nodup` plus membership iff reachability), in
declared-field order: the walk at a node is the node followed by the walks
of its `visitChildren` in order, and `visitChildren` omits the branch-target
`block`, `blocks` and `default` fields of `Br`, `BrIf` and `BrTable`, so a
block lexically nested in a body and also targeted by branches elsewhere is
visited once, at its lexical position. -/
theorem visitor_walk_visits_each_reachable_once (a : Arena) (entry : Nat)
    (wf : WFArena a) (up : UniqueParent a) :
    (walk a entry).Nodup ∧
      (∀ k, k ∈ walk a entry ↔ Reachable a entry k) ∧
      walk a entry = entry :: (childrenAt a entry).flatMap (walk a) :=
  ⟨walk_nodup wf up entry, fun k => mem_walk_iff_reachable wf entry k,
    walk_unfold wf entry⟩

/-- A function body whose entry block (id 2) lexically contains a block `B`
(id 0) followed by a `br` (id 1) that targets `B`. -/
def exampleArena : Arena :=
  [ Expr.Block ⟨BlockKind.Block, [], [], []⟩,
    Expr.Br ⟨0, []⟩,
    Expr.Block ⟨BlockKind.FunctionEntry, [], [], [0, 1]⟩ ]

/-- Witness for claim C3, on a body where block 0 is both lexically nested
in the entry's body and the target of the branch at id 1: the walk is
`[2, 0, 1]` and visits block 0 exactly once, not once per referencing
branch. -/
theorem visitor_walk_witness :
    WFArena exampleArena ∧ UniqueParent exampleArena ∧
      ((walk exampleArena 2).Nodup ∧
        (∀ k, k ∈ walk exampleArena 2 ↔ Reachable exampleArena 2 k) ∧
        walk exampleArena 2 =
          2 :: (childrenAt exampleArena 2).flatMap (walk exampleArena)) ∧
      walk exampleArena 2 = [2, 0, 1] ∧ (walk exampleArena 2).count 0 = 1 :=
  ⟨by decide, by decide,
    visitor_walk_visits_each_reachable_once exampleArena 2 (by decide) (by decide),
    by decide, by decide⟩

/-- Claim C4: `display_br_table` appends after the mnemonic exactly
`" (;default:e{default_index}  [e{b1} e{b2} ...];)"` (two spaces before the
bracket), the bracketed list holding each table entry's numeric index in
table order, space-separated; blocks `[e2, e3]` with default `e4` render
`" (;default:e4  [e2 e3];)"`. -/
theorem br_table_display_appends_default_and_entries :
    (∀ (e : BrTable) (f : String),
        display_br_table e f = f ++ brTableSuffixSpec e.blocks e.default) ∧
      display_br_table ⟨0, [2, 3], 4, []⟩ "br_table" =
        "br_table (;default:e4  [e2 e3];)" :=
  ⟨fun _ _ => rfl, rfl⟩

/-- Claim C5: `display_br` and `display_br_if` append after the mnemonic
exactly `" (;e{index};)"` with the target block's numeric index; a `br`
whose target block has index 2 gets trailing `" (;e2;)"`. -/
theorem br_and_br_if_display_append_target_index :
    (∀ (e : Br) (f : String), display_br e f = f ++ brSuffixSpec e.block) ∧
      (∀ (e : BrIf) (f : String), display_br_if e f = f ++ brSuffixSpec e.block) ∧
      display_br ⟨2, []⟩ "br" = "br (;e2;)" ∧
      display_br_if ⟨0, 2, []⟩ "br_if" = "br_if (;e2;)" :=
  ⟨fun _ _ => rfl, fun _ _ => rfl, rfl, rfl⟩

/-- Claim C6: the textual block keyword is `"loop"` when the kind is `Loop`
and `"block"` when the kind is `Block`, `IfElse`, or `FunctionEntry`. -/
theorem block_keyword_loop_or_block
    (params results : List ValType) (exprs : List ExprId) (f : String) :
    display_block_name ⟨BlockKind.Loop, params, results, exprs⟩ f = f ++ "loop" ∧
      display_block_name ⟨BlockKind.Block, params, results, exprs⟩ f = f ++ "block" ∧
      display_block_name ⟨BlockKind.IfElse, params, results, exprs⟩ f = f ++ "block" ∧
      display_block_name ⟨BlockKind.FunctionEntry, params, results, exprs⟩ f =
        f ++ "block" :=
  ⟨rfl, rfl, rfl, rfl⟩

/-- Claim C7: `Binop` and `Unop` nodes render their operator name as the
operator enumeration variant's own case-name spelling (`{:?}` on the
derived `Debug`), e.g. `I32Add` — not a symbolic or mnemonic form. -/
theorem operator_names_render_case_name :
    (∀ (e : Binop) (f : String), display_binop_name e f = f ++ e.op.caseName) ∧
      (∀ (e : Unop) (f : String), display_unop_name e f = f ++ e.op.caseName) ∧
      display_binop_name ⟨BinaryOp.I32Add, 1, 2⟩ "" = "I32Add" ∧
      display_binop_name ⟨BinaryOp.I32Add, 1, 2⟩ "" ≠ "i32.add" ∧
      display_binop_name ⟨BinaryOp.I32Add, 1, 2⟩ "" ≠ "+" ∧
      display_unop_name ⟨UnaryOp.I32Eqz, 1⟩ "" = "I32Eqz" :=
  ⟨fun _ _ => rfl, fun _ _ => rfl, rfl, by decide, by decide, rfl⟩

/-- Claim C8: `Block.new kind params results` returns a block whose body
`exprs` is empty and whose `kind`, `params` and `results` equal the given
arguments unchanged. -/
theorem block_new_fields (kind : BlockKind) (params results : List ValType) :
    (Block.new kind params results).exprs = [] ∧
      (Block.new kind params results).kind = kind ∧
      (Block.new kind params results).params = params ∧
      (Block.new kind params results).results = results :=
  ⟨rfl, rfl, rfl, rfl⟩

/-- Claim C9: the graph (dot) block keyword is `"loop"` for `Loop`,
`"if_else"` for `IfElse`, `"entry"` for `FunctionEntry`, and `"block"` for
`Block` — distinguishing `IfElse` and `FunctionEntry` from `Block`, unlike
the textual renderer, which collapses all three to `"block"`. -/
theorem dot_block_name_distinguishes_kinds :
    (∀ (params results : List ValType) (exprs : List ExprId) (out : String),
        dot_block_name ⟨BlockKind.Loop, params, results, exprs⟩ out = out ++ "loop" ∧
        dot_block_name ⟨BlockKind.IfElse, params, results, exprs⟩ out = out ++ "if_else" ∧
        dot_block_name ⟨BlockKind.FunctionEntry, params, results, exprs⟩ out =
          out ++ "entry" ∧
        dot_block_name ⟨BlockKind.Block, params, results, exprs⟩ out = out ++ "block") ∧
      dot_block_name ⟨BlockKind.IfElse, [], [], []⟩ "" ≠
        dot_block_name ⟨BlockKind.Block, [], [], []⟩ "" ∧
      dot_block_name ⟨BlockKind.FunctionEntry, [], [], []⟩ "" ≠
        dot_block_name ⟨BlockKind.Block, [], [], []⟩ "" ∧
      display_block_name ⟨BlockKind.IfElse, [], [], []⟩ "" =
        display_block_name ⟨BlockKind.Block, [], [], []⟩ "" ∧
      display_block_name ⟨BlockKind.FunctionEntry, [], [], []⟩ "" =
        display_block_name ⟨BlockKind.Block, [], [], []⟩ "" :=
  ⟨fun _ _ _ _ => ⟨rfl, rfl, rfl, rfl⟩, by decide, by decide, rfl, rfl⟩

/-- Claim C10: `Local.new id ty` returns a local whose `name` is `None`,
whose id is the given id, and whose type is the given type. -/
theorem local_new_fields (id : LocalId) (ty : ValType) :
    (Local.new id ty).name = none ∧ (Local.new id ty).id = id ∧
      (Local.new id ty).ty = ty :=
  ⟨rfl, rfl, rfl⟩
